import Mathlib

/-!
Verification of the scalar linear-unit trainer from `DL_AA_Section3.ipynb`.

The notebook trains a one-weight, one-bias linear model `output = weight * x + bias`
on the single sample `(x, target) = (3.0, 6.0)` by gradient descent on the squared
error.  We embed the arithmetic over `ℚ` (the notebook's floats carry exact decimal
literals at every state the claims mention, so exact rational arithmetic reproduces
the quantities the claims are about).
-/

/-- Forward pass (cell-5): `output = weight * x + bias`. -/
def forwardOutput (weight bias x : ℚ) : ℚ := weight * x + bias

/-- Loss (cell-5): `loss = (output - target) ** 2`. -/
def lossOf (output target : ℚ) : ℚ := (output - target) ^ 2

/-- Backward pass (cell-7): `error = output - target`. -/
def errorOf (output target : ℚ) : ℚ := output - target

/-- Backward pass (cell-7): `grad_weight = 2 * error * x`. -/
def gradWeight (error x : ℚ) : ℚ := 2 * error * x

/-- Backward pass (cell-7): `grad_bias = 2 * error`. -/
def gradBias (error : ℚ) : ℚ := 2 * error

/-- Result of one training step: the updated parameters together with the loss
the step reports (cells 5, 7 and 9 run in sequence; the spec's `step` contract). -/
structure StepResult where
  weight : ℚ
  bias : ℚ
  loss : ℚ
  deriving DecidableEq, Repr

/-- One training step, exactly the sequence the notebook executes
(forward pass, loss, backward pass, gradient-descent update; cells 5, 7, 9,
also the body of the cell-11 loop). -/
def step (weight bias x target learning_rate : ℚ) : StepResult :=
  let output := forwardOutput weight bias x
  let loss := lossOf output target
  let error := errorOf output target
  let grad_weight := gradWeight error x
  let grad_bias := gradBias error
  { weight := weight - learning_rate * grad_weight
    bias := bias - learning_rate * grad_bias
    loss := loss }

/-- The mutable state of the cell-11 training loop: the two parameters and the
`losses` list the loop appends to. -/
structure LoopState where
  weight : ℚ
  bias : ℚ
  losses : List ℚ
  deriving DecidableEq, Repr

/-- One iteration of the cell-11 loop body: forward pass, append the (pre-update)
loss to `losses`, backward pass, gradient-descent update. -/
def trainStep (learning_rate x target : ℚ) (st : LoopState) : LoopState :=
  let output := st.weight * x + st.bias
  let loss := (output - target) ^ 2
  let losses := st.losses ++ [loss]
  let error := output - target
  let grad_weight := 2 * error * x
  let grad_bias := 2 * error
  { weight := st.weight - learning_rate * grad_weight
    bias := st.bias - learning_rate * grad_bias
    losses := losses }

/-- The cell-11 loop after `n` iterations from state `st`
(the notebook runs it for `n = 100` with `learning_rate = 0.01`, `x = 3`,
`target = 6`, starting from freshly drawn parameters and `losses = []`). -/
def trainRun (learning_rate x target : ℚ) (st : LoopState) : Nat → LoopState
  | 0 => st
  | n + 1 => trainStep learning_rate x target (trainRun learning_rate x target st n)

/-- The prediction of the model held in a loop state. -/
def predAt (x : ℚ) (st : LoopState) : ℚ := st.weight * x + st.bias

/-- The signed error of the model held in a loop state. -/
def errAt (x target : ℚ) (st : LoopState) : ℚ := st.weight * x + st.bias - target

/-- The (pre-update) loss of the model held in a loop state. -/
def lossAt (x target : ℚ) (st : LoopState) : ℚ := (st.weight * x + st.bias - target) ^ 2

/- ### Basic unfolding lemmas -/

theorem step_eq (w b x t lr : ℚ) :
    step w b x t lr =
      { weight := w - lr * (2 * (w * x + b - t) * x)
        bias := b - lr * (2 * (w * x + b - t))
        loss := (w * x + b - t) ^ 2 } := by
  simp [step, forwardOutput, lossOf, errorOf, gradWeight, gradBias]

theorem trainStep_eq (lr x t : ℚ) (st : LoopState) :
    trainStep lr x t st =
      { weight := st.weight - lr * (2 * (st.weight * x + st.bias - t) * x)
        bias := st.bias - lr * (2 * (st.weight * x + st.bias - t))
        losses := st.losses ++ [(st.weight * x + st.bias - t) ^ 2] } := by
  simp [trainStep]

/-- Each loop iteration multiplies the signed error by `1 - 2 * lr * (x ^ 2 + 1)`. -/
theorem errAt_trainStep (lr x t : ℚ) (st : LoopState) :
    errAt x t (trainStep lr x t st) = (1 - 2 * lr * (x ^ 2 + 1)) * errAt x t st := by
  simp only [errAt, trainStep_eq]
  ring

/-- Closed form of the error after `n` iterations. -/
theorem errAt_trainRun (lr x t : ℚ) (st : LoopState) (n : Nat) :
    errAt x t (trainRun lr x t st n) = (1 - 2 * lr * (x ^ 2 + 1)) ^ n * errAt x t st := by
  induction n with
  | zero => simp [trainRun]
  | succ n ih =>
      rw [trainRun, errAt_trainStep, ih, pow_succ]
      ring

/- ### C1: the step computes the spec's five formulas and reports the pre-update loss -/

/-- C1: for every weight, bias, x, target and learning rate, one training step
computes `output = weight * x + bias`, `loss = (output - target)^2`,
`error = output - target`, `grad_weight = 2 * error * x`, `grad_bias = 2 * error`,
updates `weight' = weight - lr * grad_weight`, `bias' = bias - lr * grad_bias`,
and the loss it reports is the one computed from the parameters before the update. -/
theorem step_spec (w b x t lr : ℚ) :
    (step w b x t lr).weight
        = w - lr * gradWeight (errorOf (forwardOutput w b x) t) x ∧
    (step w b x t lr).bias
        = b - lr * gradBias (errorOf (forwardOutput w b x) t) ∧
    (step w b x t lr).loss = lossOf (forwardOutput w b x) t ∧
    forwardOutput w b x = w * x + b ∧
    lossOf (forwardOutput w b x) t = (w * x + b - t) ^ 2 ∧
    errorOf (forwardOutput w b x) t = w * x + b - t ∧
    gradWeight (errorOf (forwardOutput w b x) t) x = 2 * (w * x + b - t) * x ∧
    gradBias (errorOf (forwardOutput w b x) t) = 2 * (w * x + b - t) := by
  refine ⟨rfl, rfl, rfl, rfl, ?_, rfl, rfl, rfl⟩
  simp [lossOf, forwardOutput]

/- ### C2: the forward/backward quantities at the rounded state (corrected) -/

/-- C2 counterexample: at the state `weight = 0.497`, `bias = -0.138`, `x = 3`,
`target = 6` the loss is exactly `21.594609`, which does not agree with the
spec's `21.60` to the displayed precision (it is more than half a unit of the
last displayed digit away, and rounds to `21.59`). -/
theorem loss_at_rounded_state_not_2160 :
    (step (497/1000) (-(138/1000)) 3 6 (1/100)).loss = 21594609/1000000 ∧
    ¬ |(step (497/1000) (-(138/1000)) 3 6 (1/100)).loss - 2160/100| ≤ 5/1000 := by
  rw [step_eq]
  norm_num [abs_le]

/-- C2 amended: at the state `weight = 0.497`, `bias = -0.138`, `x = 3`,
`target = 6` the computed quantities are `output = 1.353` and `error = -4.647`
exactly, `grad_weight = -27.882 ≈ -27.88` and `grad_bias = -9.294 ≈ -9.29`
(within half a unit of the last displayed digit), and
`loss = 21.594609 ≈ 21.595`, which is within `0.006` of the spec's `21.60`
but rounds to `21.59`, not `21.60`. -/
theorem forward_backward_at_rounded_state :
    forwardOutput (497/1000) (-(138/1000)) 3 = 1353/1000 ∧
    errorOf (forwardOutput (497/1000) (-(138/1000)) 3) 6 = -(4647/1000) ∧
    lossOf (forwardOutput (497/1000) (-(138/1000)) 3) 6 = 21594609/1000000 ∧
    |lossOf (forwardOutput (497/1000) (-(138/1000)) 3) 6 - 21595/1000| ≤ 5/10000 ∧
    |lossOf (forwardOutput (497/1000) (-(138/1000)) 3) 6 - 2160/100| ≤ 6/1000 ∧
    gradWeight (errorOf (forwardOutput (497/1000) (-(138/1000)) 3) 6) 3
      = -(27882/1000) ∧
    |gradWeight (errorOf (forwardOutput (497/1000) (-(138/1000)) 3) 6) 3
      - (-(2788/100))| ≤ 5/1000 ∧
    gradBias (errorOf (forwardOutput (497/1000) (-(138/1000)) 3) 6) = -(9294/1000) ∧
    |gradBias (errorOf (forwardOutput (497/1000) (-(138/1000)) 3) 6)
      - (-(929/100))| ≤ 5/1000 := by
  norm_num [forwardOutput, errorOf, lossOf, gradWeight, gradBias, abs_le]

/- ### C3: one step with learning_rate = 0.01 from the rounded state -/

/-- C3: starting from `weight = 0.497`, `bias = -0.138` with `x = 3`,
`target = 6`, a single step with `learning_rate = 0.01` yields
`weight = 0.77582 ≈ 0.776` and `bias = -0.04506 ≈ -0.045`, and the loss
recomputed at the updated parameters (`13.82054976 ≈ 13.83` within `0.01`)
is strictly less than the loss at the old parameters
(`21.594609 ≈ 21.60` within `0.01`). -/
theorem one_step_from_rounded_state :
    (step (497/1000) (-(138/1000)) 3 6 (1/100)).weight = 77582/100000 ∧
    |(step (497/1000) (-(138/1000)) 3 6 (1/100)).weight - 776/1000| ≤ 5/10000 ∧
    (step (497/1000) (-(138/1000)) 3 6 (1/100)).bias = -(4506/100000) ∧
    |(step (497/1000) (-(138/1000)) 3 6 (1/100)).bias - (-(45/1000))| ≤ 5/10000 ∧
    lossOf
        (forwardOutput (step (497/1000) (-(138/1000)) 3 6 (1/100)).weight
          (step (497/1000) (-(138/1000)) 3 6 (1/100)).bias 3) 6
      = 1382054976/100000000 ∧
    |lossOf
        (forwardOutput (step (497/1000) (-(138/1000)) 3 6 (1/100)).weight
          (step (497/1000) (-(138/1000)) 3 6 (1/100)).bias 3) 6
      - 1383/100| ≤ 1/100 ∧
    lossOf
        (forwardOutput (step (497/1000) (-(138/1000)) 3 6 (1/100)).weight
          (step (497/1000) (-(138/1000)) 3 6 (1/100)).bias 3) 6
      < (step (497/1000) (-(138/1000)) 3 6 (1/100)).loss ∧
    |(step (497/1000) (-(138/1000)) 3 6 (1/100)).loss - 2160/100| ≤ 1/100 := by
  rw [step_eq]
  norm_num [forwardOutput, lossOf, abs_le]

/- ### C5: learning_rate = 0 freezes the parameters and the loss -/

/-- With `learning_rate = 0` the loop never changes the parameters and appends
the same initial loss every iteration. -/
theorem trainRun_zero_lr (w b x t : ℚ) (l : List ℚ) (n : Nat) :
    trainRun 0 x t ⟨w, b, l⟩ n
      = ⟨w, b, l ++ List.replicate n ((w * x + b - t) ^ 2)⟩ := by
  induction n with
  | zero => simp [trainRun]
  | succ n ih =>
      rw [trainRun, ih, trainStep_eq]
      simp [List.replicate_succ']

/-- C5: for every weight, bias, x and target, a step with `learning_rate = 0`
returns the parameters unchanged, and iterating such steps any number of times
leaves the parameters unchanged and every recorded loss equal to the initial
loss. -/
theorem zero_learning_rate_freezes (w b x t : ℚ) (n : Nat) :
    (step w b x t 0).weight = w ∧
    (step w b x t 0).bias = b ∧
    (step w b x t 0).loss = lossOf (forwardOutput w b x) t ∧
    (trainRun 0 x t ⟨w, b, []⟩ n).weight = w ∧
    (trainRun 0 x t ⟨w, b, []⟩ n).bias = b ∧
    (trainRun 0 x t ⟨w, b, []⟩ n).losses
      = List.replicate n (lossAt x t ⟨w, b, []⟩) := by
  rw [trainRun_zero_lr, step_eq]
  norm_num [lossOf, forwardOutput, lossAt]

/- ### C6: determinism -/

/-- Modelled from the spec: `np.random.seed` makes the random source a
deterministic function of the seed (numpy's generator itself is outside the
repository), so drawing the initial `(weight, bias)` is a function
`rng : Nat → ℚ × ℚ` applied to the seed. -/
def initFromSeed (rng : Nat → ℚ × ℚ) (seed : Nat) : ℚ × ℚ := rng seed

/-- C6: `step` is deterministic — identical inputs give identical outputs, and
there is no hidden state: the whole run is a function of the drawn initial
parameters, so seeding the random source identically before two independent
runs reproduces identical initial `weight`/`bias` values and identical full
loss trajectories. -/
theorem run_deterministic (rng : Nat → ℚ × ℚ) (s1 s2 n : Nat) (h : s1 = s2) :
    initFromSeed rng s1 = initFromSeed rng s2 ∧
    (∀ w b x t lr w' b' x' t' lr', w = w' → b = b' → x = x' → t = t' → lr = lr' →
      step w b x t lr = step w' b' x' t' lr') ∧
    trainRun (1/100) 3 6 ⟨(initFromSeed rng s1).1, (initFromSeed rng s1).2, []⟩ n
      = trainRun (1/100) 3 6 ⟨(initFromSeed rng s2).1, (initFromSeed rng s2).2, []⟩ n ∧
    (trainRun (1/100) 3 6 ⟨(initFromSeed rng s1).1, (initFromSeed rng s1).2, []⟩ n).losses
      = (trainRun (1/100) 3 6 ⟨(initFromSeed rng s2).1, (initFromSeed rng s2).2, []⟩ n).losses := by
  subst h
  refine ⟨rfl, ?_, rfl, rfl⟩
  intro w b x t lr w' b' x' t' lr' hw hb hx ht hlr
  subst hw; subst hb; subst hx; subst ht; subst hlr
  rfl

/-- C6 witness. -/
theorem run_deterministic_witness :
    (42 : Nat) = 42 ∧
    initFromSeed (fun _ => ((497 : ℚ)/1000, -((138 : ℚ)/1000))) 42
      = initFromSeed (fun _ => ((497 : ℚ)/1000, -((138 : ℚ)/1000))) 42 := by
  refine ⟨rfl, ?_⟩
  exact (run_deterministic (fun _ => ((497 : ℚ)/1000, -((138 : ℚ)/1000))) 42 42 3 rfl).1

/- ### C7: the trace of the reference run -/

/-- The trace the loop builds from an empty list records, in order, the
pre-update loss of each visited state. -/
theorem trainRun_losses (lr x t w b : ℚ) (n : Nat) :
    (trainRun lr x t ⟨w, b, []⟩ n).losses
      = (List.range n).map (fun i => lossAt x t (trainRun lr x t ⟨w, b, []⟩ i)) := by
  induction n with
  | zero => simp [trainRun]
  | succ n ih =>
      rw [trainRun, trainStep_eq]
      simp only [List.range_succ, List.map_append, List.map_cons, List.map_nil]
      rw [ih]
      rfl

/-- The parameter trajectory never depends on the contents of the trace. -/
theorem trainRun_params_ignore_trace (lr x t w b : ℚ) (l : List ℚ) (n : Nat) :
    (trainRun lr x t ⟨w, b, l⟩ n).weight = (trainRun lr x t ⟨w, b, []⟩ n).weight ∧
    (trainRun lr x t ⟨w, b, l⟩ n).bias = (trainRun lr x t ⟨w, b, []⟩ n).bias := by
  induction n with
  | zero => exact ⟨rfl, rfl⟩
  | succ n ih =>
      rw [trainRun, trainRun, trainStep_eq, trainStep_eq]
      exact ⟨by rw [ih.1, ih.2], by rw [ih.1, ih.2]⟩

/-- C7: the reference loop performs exactly 100 iterations, each iteration being
exactly one invocation of `step` (same parameter update, and the appended value
is the loss `step` reports), the final trace has exactly 100 entries whose i-th
entry is the pre-update loss of iteration i, and the trace is append-only and
never read during training (the parameters are independent of its contents). -/
theorem training_trace_spec (w0 b0 : ℚ) :
    (trainRun (1/100) 3 6 ⟨w0, b0, []⟩ 100).losses.length = 100 ∧
    (trainRun (1/100) 3 6 ⟨w0, b0, []⟩ 100).losses
      = (List.range 100).map (fun i => lossAt 3 6 (trainRun (1/100) 3 6 ⟨w0, b0, []⟩ i)) ∧
    (∀ lr x t st,
      (trainStep lr x t st).weight = (step st.weight st.bias x t lr).weight ∧
      (trainStep lr x t st).bias = (step st.weight st.bias x t lr).bias ∧
      (trainStep lr x t st).losses
        = st.losses ++ [(step st.weight st.bias x t lr).loss]) ∧
    (∀ l : List ℚ,
      (trainRun (1/100) 3 6 ⟨w0, b0, l⟩ 100).weight
        = (trainRun (1/100) 3 6 ⟨w0, b0, []⟩ 100).weight ∧
      (trainRun (1/100) 3 6 ⟨w0, b0, l⟩ 100).bias
        = (trainRun (1/100) 3 6 ⟨w0, b0, []⟩ 100).bias) := by
  refine ⟨?_, trainRun_losses (1/100) 3 6 w0 b0 100, ?_, ?_⟩
  · rw [trainRun_losses]
    simp
  · intro lr x t st
    rw [trainStep_eq, step_eq]
    exact ⟨rfl, rfl, rfl⟩
  · intro l
    exact trainRun_params_ignore_trace (1/100) 3 6 w0 b0 l 100

/- ### C9: every state on the solution line is a fixed point of step -/

/-- C9: if `weight * x + bias = target` then the step computes loss 0, both
gradients 0, and returns the parameters unchanged, so the predicate
`weight * x + bias = target` is preserved by `step`. -/
theorem solution_line_fixed_point (w b x t lr : ℚ) (h : w * x + b = t) :
    (step w b x t lr).weight = w ∧
    (step w b x t lr).bias = b ∧
    (step w b x t lr).loss = 0 ∧
    gradWeight (errorOf (forwardOutput w b x) t) x = 0 ∧
    gradBias (errorOf (forwardOutput w b x) t) = 0 ∧
    (step w b x t lr).weight * x + (step w b x t lr).bias = t := by
  have e0 : w * x + b - t = 0 := by rw [h]; ring
  rw [step_eq]
  simp only [gradWeight, gradBias, errorOf, forwardOutput, e0]
  norm_num
  exact h

/-- C9 witness: the state `(weight, bias) = (1, 3)` with `x = 3`, `target = 6`
lies on the solution line and is fixed. -/
theorem solution_line_fixed_point_witness :
    (1 : ℚ) * 3 + 3 = 6 ∧
    (step 1 3 3 6 (1/100)).weight = 1 ∧
    (step 1 3 3 6 (1/100)).bias = 3 ∧
    (step 1 3 3 6 (1/100)).loss = 0 := by
  have h := solution_line_fixed_point 1 3 3 6 (1/100) (by norm_num)
  exact ⟨by norm_num, h.1, h.2.1, h.2.2.1⟩

/- ### C10: per-step error contraction factor -/

/-- C10: in exact arithmetic each loop iteration multiplies the error by the
constant `1 - 2 * lr * (x^2 + 1)`; for the reference constants `x = 3`,
`lr = 0.01` this factor is exactly `0.8 = 4/5`, each iteration multiplies the
loss by exactly `0.64 = 16/25`, and the loss strictly decreases whenever it is
nonzero. -/
theorem error_contraction (lr x t : ℚ) (st : LoopState) :
    errAt x t (trainStep lr x t st) = (1 - 2 * lr * (x ^ 2 + 1)) * errAt x t st ∧
    1 - 2 * (1/100 : ℚ) * ((3 : ℚ) ^ 2 + 1) = 4/5 ∧
    errAt 3 t (trainStep (1/100) 3 t st) = (4/5) * errAt 3 t st ∧
    lossAt 3 t (trainStep (1/100) 3 t st) = (16/25) * lossAt 3 t st ∧
    (lossAt 3 t st ≠ 0 → lossAt 3 t (trainStep (1/100) 3 t st) < lossAt 3 t st) := by
  have hfac : (1 : ℚ) - 2 * (1/100) * ((3 : ℚ) ^ 2 + 1) = 4/5 := by norm_num
  have herr : errAt 3 t (trainStep (1/100) 3 t st) = (4/5) * errAt 3 t st := by
    rw [errAt_trainStep, hfac]
  have hloss : lossAt 3 t (trainStep (1/100) 3 t st) = (16/25) * lossAt 3 t st := by
    have h1 : lossAt 3 t (trainStep (1/100) 3 t st)
        = (errAt 3 t (trainStep (1/100) 3 t st)) ^ 2 := rfl
    have h2 : lossAt 3 t st = (errAt 3 t st) ^ 2 := rfl
    rw [h1, h2, herr]
    ring
  refine ⟨errAt_trainStep lr x t st, hfac, herr, hloss, ?_⟩
  intro hne
  have hpos : 0 < lossAt 3 t st := by
    have : 0 ≤ lossAt 3 t st := by
      have h2 : lossAt 3 t st = (errAt 3 t st) ^ 2 := rfl
      rw [h2]; positivity
    exact lt_of_le_of_ne this (Ne.symm hne)
  rw [hloss]
  linarith

/-- C10 witness: from the state `(weight, bias) = (0, 0)` with `target = 6` the
loss is `36 ≠ 0` and one iteration brings it down to `23.04`. -/
theorem error_contraction_witness :
    lossAt 3 6 ⟨0, 0, []⟩ ≠ 0 ∧
    lossAt 3 6 (trainStep (1/100) 3 6 ⟨0, 0, []⟩) < lossAt 3 6 ⟨0, 0, []⟩ := by
  have hne : lossAt 3 6 (⟨0, 0, []⟩ : LoopState) ≠ 0 := by norm_num [lossAt]
  exact ⟨hne, (error_contraction (1/100) 3 6 ⟨0, 0, []⟩).2.2.2.2 hne⟩

/- ### C8: no validation, bad learning rates accepted -/

/-- C8: `step` is a total function with no validation branch — for every input,
including non-positive or huge `learning_rate`, it returns the same closed-form
result; a `learning_rate ≤ 0` or `≥ 1/10` simply produces a non-decreasing loss
at the reference input `x = 3` rather than a raised failure. -/
theorem step_total_no_validation (w b x t lr : ℚ) (h : lr ≤ 0 ∨ 1/10 ≤ lr) :
    step w b x t lr =
      { weight := w - lr * (2 * (w * x + b - t) * x)
        bias := b - lr * (2 * (w * x + b - t))
        loss := (w * x + b - t) ^ 2 } ∧
    lossAt 3 t ⟨w, b, []⟩ ≤ lossAt 3 t (trainStep lr 3 t ⟨w, b, []⟩) := by
  refine ⟨step_eq w b x t lr, ?_⟩
  have herr : errAt 3 t (trainStep lr 3 t ⟨w, b, []⟩)
      = (1 - 20 * lr) * errAt 3 t (⟨w, b, []⟩ : LoopState) := by
    rw [errAt_trainStep]
    ring
  have hloss : lossAt 3 t (trainStep lr 3 t ⟨w, b, []⟩)
      = (1 - 20 * lr) ^ 2 * lossAt 3 t (⟨w, b, []⟩ : LoopState) := by
    have h1 : lossAt 3 t (trainStep lr 3 t ⟨w, b, []⟩)
        = (errAt 3 t (trainStep lr 3 t ⟨w, b, []⟩)) ^ 2 := rfl
    have h2 : lossAt 3 t (⟨w, b, []⟩ : LoopState)
        = (errAt 3 t (⟨w, b, []⟩ : LoopState)) ^ 2 := rfl
    rw [h1, h2, herr]
    ring
  have hfac : 1 ≤ (1 - 20 * lr) ^ 2 := by
    rcases h with h | h
    · nlinarith
    · nlinarith
  have hnn : 0 ≤ lossAt 3 t (⟨w, b, []⟩ : LoopState) := by
    have h2 : lossAt 3 t (⟨w, b, []⟩ : LoopState)
        = (errAt 3 t (⟨w, b, []⟩ : LoopState)) ^ 2 := rfl
    rw [h2]; positivity
  rw [hloss]
  nlinarith

/-- C8 witness: a negative learning rate is accepted and the loss does not
decrease. -/
theorem step_total_no_validation_witness :
    ((-1 : ℚ) ≤ 0 ∨ (1 : ℚ)/10 ≤ -1) ∧
    lossAt 3 6 ⟨0, 0, []⟩ ≤ lossAt 3 6 (trainStep (-1) 3 6 ⟨0, 0, []⟩) := by
  refine ⟨Or.inl (by norm_num), ?_⟩
  exact (step_total_no_validation 0 0 3 6 (-1) (Or.inl (by norm_num))).2

/- ### C4: convergence to the solution line -/

/-- C4: for the fixed sample `(x, target) = (3, 6)` and any sufficiently small
positive learning rate (`0 < lr < 1/10`), iterating the loop makes the loss
approach 0 and the prediction `weight * 3 + bias` approach the target; the
single sample underdetermines the weight/bias split, so convergence is to some
pair on the line `weight * 3 + bias = 6`, not necessarily `(2, 0)` — e.g. the
run started at `(1, 3)` stays at `(1, 3)` forever. -/
theorem convergence_to_solution_line (lr w0 b0 : ℚ) (h1 : 0 < lr) (h2 : lr < 1/10) :
    (∀ ε : ℚ, 0 < ε → ∃ N : Nat, ∀ n : Nat, N ≤ n →
        lossAt 3 6 (trainRun lr 3 6 ⟨w0, b0, []⟩ n) < ε ∧
        |predAt 3 (trainRun lr 3 6 ⟨w0, b0, []⟩ n) - 6| < ε) ∧
    (∀ n : Nat, (trainRun lr 3 6 ⟨1, 3, []⟩ n).weight = 1 ∧
        (trainRun lr 3 6 ⟨1, 3, []⟩ n).bias = 3 ∧ (1 : ℚ) * 3 + 3 = 6) ∧
    ¬ (((1 : ℚ), (3 : ℚ)) = ((2 : ℚ), (0 : ℚ))) := by
  have hfac : (1 : ℚ) - 2 * lr * ((3 : ℚ) ^ 2 + 1) = 1 - 20 * lr := by ring
  refine ⟨?_, ?_, by norm_num [Prod.ext_iff]⟩
  · intro ε hε
    have habs : |(1 : ℚ) - 20 * lr| < 1 := abs_lt.mpr ⟨by linarith, by linarith⟩
    have hδ : 0 < min ε 1 := lt_min hε one_pos
    have he1 : (0 : ℚ) < |w0 * 3 + b0 - 6| + 1 := by positivity
    have hd : 0 < min ε 1 / (|w0 * 3 + b0 - 6| + 1) := div_pos hδ he1
    obtain ⟨N, hN⟩ := exists_pow_lt_of_lt_one hd habs
    refine ⟨N, fun n hn => ?_⟩
    have herr_n : errAt 3 6 (trainRun lr 3 6 ⟨w0, b0, []⟩ n)
        = (1 - 20 * lr) ^ n * (w0 * 3 + b0 - 6) := by
      rw [errAt_trainRun, hfac]
      rfl
    have hbound : |errAt 3 6 (trainRun lr 3 6 ⟨w0, b0, []⟩ n)| < min ε 1 := by
      have hc1 : |errAt 3 6 (trainRun lr 3 6 ⟨w0, b0, []⟩ n)|
          = |(1 : ℚ) - 20 * lr| ^ n * |w0 * 3 + b0 - 6| := by
        rw [herr_n, abs_mul, abs_pow]
      have hc2 : |(1 : ℚ) - 20 * lr| ^ n ≤ |(1 : ℚ) - 20 * lr| ^ N :=
        pow_le_pow_of_le_one (abs_nonneg _) habs.le hn
      have hc3 : |(1 : ℚ) - 20 * lr| ^ n * |w0 * 3 + b0 - 6|
          ≤ |(1 : ℚ) - 20 * lr| ^ N * (|w0 * 3 + b0 - 6| + 1) := by
        have := abs_nonneg (w0 * 3 + b0 - 6)
        have := pow_nonneg (abs_nonneg ((1 : ℚ) - 20 * lr)) n
        nlinarith
      have hc4 : |(1 : ℚ) - 20 * lr| ^ N * (|w0 * 3 + b0 - 6| + 1)
          < min ε 1 / (|w0 * 3 + b0 - 6| + 1) * (|w0 * 3 + b0 - 6| + 1) :=
        mul_lt_mul_of_pos_right hN he1
      have hc5 : min ε 1 / (|w0 * 3 + b0 - 6| + 1) * (|w0 * 3 + b0 - 6| + 1)
          = min ε 1 := div_mul_cancel₀ (min ε 1) (ne_of_gt he1)
      rw [hc1]
      linarith
    constructor
    · have hl : lossAt 3 6 (trainRun lr 3 6 ⟨w0, b0, []⟩ n)
          = (errAt 3 6 (trainRun lr 3 6 ⟨w0, b0, []⟩ n)) ^ 2 := rfl
      have hsq : (errAt 3 6 (trainRun lr 3 6 ⟨w0, b0, []⟩ n)) ^ 2 < (min ε 1) ^ 2 := by
        rw [← sq_abs]
        exact pow_lt_pow_left₀ hbound (abs_nonneg _) (by norm_num)
      have hδ1 : min ε 1 ≤ 1 := min_le_right ε 1
      have hδε : min ε 1 ≤ ε := min_le_left ε 1
      rw [hl]
      nlinarith
    · have hp : predAt 3 (trainRun lr 3 6 ⟨w0, b0, []⟩ n) - 6
          = errAt 3 6 (trainRun lr 3 6 ⟨w0, b0, []⟩ n) := rfl
      rw [hp]
      exact lt_of_lt_of_le hbound (min_le_left ε 1)
  · intro n
    induction n with
    | zero => exact ⟨rfl, rfl, by norm_num⟩
    | succ n ih =>
        rw [trainRun, trainStep_eq]
        refine ⟨?_, ?_, by norm_num⟩
        · show (trainRun lr 3 6 ⟨1, 3, []⟩ n).weight
            - lr * (2 * ((trainRun lr 3 6 ⟨1, 3, []⟩ n).weight * 3
              + (trainRun lr 3 6 ⟨1, 3, []⟩ n).bias - 6) * 3) = 1
          rw [ih.1, ih.2.1]
          norm_num
        · show (trainRun lr 3 6 ⟨1, 3, []⟩ n).bias
            - lr * (2 * ((trainRun lr 3 6 ⟨1, 3, []⟩ n).weight * 3
              + (trainRun lr 3 6 ⟨1, 3, []⟩ n).bias - 6)) = 3
          rw [ih.1, ih.2.1]
          norm_num

/-- C4 witness: with `lr = 0.01` from `(0, 0)`, the loss eventually stays
below 1 and the prediction eventually stays within 1 of the target. -/
theorem convergence_to_solution_line_witness :
    (0 : ℚ) < 1/100 ∧ (1 : ℚ)/100 < 1/10 ∧ (0 : ℚ) < 1 ∧
    (∃ N : Nat, ∀ n : Nat, N ≤ n →
        lossAt 3 6 (trainRun (1/100) 3 6 ⟨0, 0, []⟩ n) < 1 ∧
        |predAt 3 (trainRun (1/100) 3 6 ⟨0, 0, []⟩ n) - 6| < 1) := by
  refine ⟨by norm_num, by norm_num, by norm_num, ?_⟩
  exact (convergence_to_solution_line (1/100) 0 0 (by norm_num) (by norm_num)).1
    1 (by norm_num)
